import Mathlib

/-!
Verification of the access-control core of `near-plugins`
(`src/near-plugins/src/access_controllable.rs`).

The repository file under `src/` contains the `AccessControllable` trait
declaration (method signatures with documented result semantics) and the
event payload types; the implementation bodies of the operations are not
part of `src/` (only the trait, its doc comments and the integration tests
are).  The operational definitions below are therefore modelled from the
specification's data model (Permission Store, Authorization Engine,
Mutation Service, Method Gate), faithful to the spec's words and to the
result semantics documented on the trait methods.

Principals (`AccountId`) and roles are opaque strings in the interface;
we embed both as `String`.
-/

/-- Account identifiers are opaque, equality-comparable strings. -/
abbrev Principal := String

/-- Roles are opaque string identifiers supplied dynamically by callers. -/
abbrev Role := String

/-- Modelled from the spec: the Permission Store's ordered set, kept as a
list in insertion order with no duplicates.  `oinsert` returns whether the
element was newly added together with the updated set; a new element is
placed at the end of the insertion order. -/
def oinsert (s : List Principal) (p : Principal) : Bool × List Principal :=
  if p ∈ s then (false, s) else (true, s ++ [p])

/-- Modelled from the spec: set-remove, returning whether the element was
present together with the updated set.  Relative order of the remaining
elements is preserved. -/
def oremove (s : List Principal) (p : Principal) : Bool × List Principal :=
  if p ∈ s then (true, s.filter (fun q => q ≠ p)) else (false, s)

/-- Lookup in an association list from roles to ordered sets; a role that
has never been touched is treated as the empty set, not as an error. -/
def mapGet : List (Role × List Principal) → Role → List Principal
  | [], _ => []
  | (r, s) :: rest, q => if r = q then s else mapGet rest q

/-- Update of an association list from roles to ordered sets: replaces the
first binding of the role, or appends a fresh binding. -/
def mapSet : List (Role × List Principal) → Role → List Principal → List (Role × List Principal)
  | [], q, v => [(q, v)]
  | (r, s) :: rest, q, v =>
      if r = q then (q, v) :: rest else (r, s) :: mapSet rest q v

/-- Modelled from the spec: the Permission Store holds the three membership
relations — super-admins, role → admins, role → grantees — each an ordered
set of principals. -/
structure AclState where
  superAdmins : List Principal
  roleAdmins : List (Role × List Principal)
  roleGrantees : List (Role × List Principal)
deriving DecidableEq, Repr

/-- The empty initial state: no principal is a super-admin, admin or
grantee by default. -/
def AclState.init : AclState := ⟨[], [], []⟩

/-- Modelled from the spec: audit events emitted by successful permission
changes.  The last field of each constructor is the acting account (the
`by` field of the Rust payload). -/
inductive Event
  | superAdminAdded (account actor : Principal)
  | superAdminRevoked (account actor : Principal)
  | adminAdded (role : Role) (account actor : Principal)
  | adminRevoked (role : Role) (account actor : Principal)
  | roleGranted (role : Role) (toAcc actor : Principal)
  | roleRevoked (role : Role) (fromAcc actor : Principal)
deriving DecidableEq, Repr

/-- Modelled from the spec: `is_super_admin(principal) = principal ∈
SuperAdminSet`; a pure, side-effect-free read (declared in the trait as
`acl_is_super_admin`). -/
def acl_is_super_admin (s : AclState) (p : Principal) : Bool :=
  decide (p ∈ s.superAdmins)

/-- Modelled from the spec: `is_admin_for(role, principal) = principal ∈
SuperAdminSet ∨ principal ∈ RoleAdmins[role]`; super-admins are admins for
every role (declared in the trait as `acl_is_admin`). -/
def acl_is_admin (s : AclState) (role : Role) (p : Principal) : Bool :=
  acl_is_super_admin s p || decide (p ∈ mapGet s.roleAdmins role)

/-- Modelled from the spec: whether `p` has been granted `role` (declared
in the trait as `acl_has_role`). -/
def acl_has_role (s : AclState) (role : Role) (p : Principal) : Bool :=
  decide (p ∈ mapGet s.roleGrantees role)

/-- Modelled from the spec: whether `p` has been granted any of `roles`
(declared in the trait as `acl_has_any_role`). -/
def acl_has_any_role (s : AclState) (roles : List Role) (p : Principal) : Bool :=
  roles.any (fun r => acl_has_role s r p)

/-- Modelled from the spec: paginated retrieval of admins of `role`,
returning up to `limit` admins after skipping the first `skip` in
insertion order (declared in the trait as `acl_get_admins`). -/
def acl_get_admins (s : AclState) (role : Role) (skip limit : Nat) : List Principal :=
  ((mapGet s.roleAdmins role).drop skip).take limit

/-- Modelled from the spec: paginated retrieval of grantees of `role`
(declared in the trait as `acl_get_grantees`). -/
def acl_get_grantees (s : AclState) (role : Role) (skip limit : Nat) : List Principal :=
  ((mapGet s.roleGrantees role).drop skip).take limit

/-- Modelled from the spec: `add_super_admin(target)` requires the actor
to be a super-admin; on success it inserts `target` into `SuperAdminSet`,
returns `some` of whether `target` was newly added and emits
`SuperAdminAdded` exactly when the state actually changed; without
permission it returns `none`, leaves the state unchanged and emits no
event. -/
def acl_add_super_admin (s : AclState) (actor target : Principal) :
    Option Bool × AclState × List Event :=
  if acl_is_super_admin s actor then
    let r := oinsert s.superAdmins target
    (some r.1, { s with superAdmins := r.2 },
      if r.1 then [Event.superAdminAdded target actor] else [])
  else (none, s, [])

/-- Modelled from the spec: `revoke_super_admin(target)` requires the
actor to be a super-admin; on success it removes `target` from
`SuperAdminSet`, returns `some` of whether `target` was present and emits
`SuperAdminRevoked` exactly on an actual transition; without permission it
returns `none` with no state change and no event. -/
def acl_revoke_super_admin (s : AclState) (actor target : Principal) :
    Option Bool × AclState × List Event :=
  if acl_is_super_admin s actor then
    let r := oremove s.superAdmins target
    (some r.1, { s with superAdmins := r.2 },
      if r.1 then [Event.superAdminRevoked target actor] else [])
  else (none, s, [])

/-- Modelled from the spec: `add_admin(role, target)` requires
`is_admin_for(role, actor)`; on success it inserts `target` into
`RoleAdmins[role]`, returns `some` of whether `target` is a new admin and
emits `AdminAdded` exactly on an actual transition; without permission it
returns `none`, leaves the state unchanged and emits no event (declared in
the trait as `acl_add_admin`). -/
def acl_add_admin (s : AclState) (actor : Principal) (role : Role) (target : Principal) :
    Option Bool × AclState × List Event :=
  if acl_is_admin s role actor then
    let r := oinsert (mapGet s.roleAdmins role) target
    (some r.1, { s with roleAdmins := mapSet s.roleAdmins role r.2 },
      if r.1 then [Event.adminAdded role target actor] else [])
  else (none, s, [])

/-- Modelled from the spec: `revoke_admin(role, target)` requires
`is_admin_for(role, actor)`; on success it removes `target` from
`RoleAdmins[role]`, returns `some` of whether `target` was present and
emits `AdminRevoked` exactly on an actual transition; without permission
it returns `none` with no state change and no event (declared in the
trait as `acl_revoke_admin`). -/
def acl_revoke_admin (s : AclState) (actor : Principal) (role : Role) (target : Principal) :
    Option Bool × AclState × List Event :=
  if acl_is_admin s role actor then
    let r := oremove (mapGet s.roleAdmins role) target
    (some r.1, { s with roleAdmins := mapSet s.roleAdmins role r.2 },
      if r.1 then [Event.adminRevoked role target actor] else [])
  else (none, s, [])

/-- Modelled from the spec: `renounce_admin(role)` is self-service, with
no precondition: it removes the actor from `RoleAdmins[role]`, returns
whether the actor was present and emits `AdminRevoked` if removed
(declared in the trait as `acl_renounce_admin`). -/
def acl_renounce_admin (s : AclState) (actor : Principal) (role : Role) :
    Bool × AclState × List Event :=
  let r := oremove (mapGet s.roleAdmins role) actor
  (r.1, { s with roleAdmins := mapSet s.roleAdmins role r.2 },
    if r.1 then [Event.adminRevoked role actor actor] else [])

/-- Modelled from the spec: `grant_role(role, target)` requires
`is_admin_for(role, actor)`; on success it inserts `target` into
`RoleGrantees[role]`, returns `some` of whether `target` is a new grantee
and emits `RoleGranted` exactly on an actual transition; without
permission it returns `none`, leaves the state unchanged and emits no
event (declared in the trait as `acl_grant_role`). -/
def acl_grant_role (s : AclState) (actor : Principal) (role : Role) (target : Principal) :
    Option Bool × AclState × List Event :=
  if acl_is_admin s role actor then
    let r := oinsert (mapGet s.roleGrantees role) target
    (some r.1, { s with roleGrantees := mapSet s.roleGrantees role r.2 },
      if r.1 then [Event.roleGranted role target actor] else [])
  else (none, s, [])

/-- Modelled from the spec: `revoke_role(role, target)` requires
`is_admin_for(role, actor)`; on success it removes `target` from
`RoleGrantees[role]`, returns `some` of whether `target` was a grantee and
emits `RoleRevoked` exactly on an actual transition; without permission it
returns `none` with no state change and no event (declared in the trait
as `acl_revoke_role`). -/
def acl_revoke_role (s : AclState) (actor : Principal) (role : Role) (target : Principal) :
    Option Bool × AclState × List Event :=
  if acl_is_admin s role actor then
    let r := oremove (mapGet s.roleGrantees role) target
    (some r.1, { s with roleGrantees := mapSet s.roleGrantees role r.2 },
      if r.1 then [Event.roleRevoked role target actor] else [])
  else (none, s, [])

/-- Modelled from the spec: `renounce_role(role)` is self-service, with no
precondition: it removes the actor from `RoleGrantees[role]`, returns
whether the actor was a grantee and emits `RoleRevoked` if removed
(declared in the trait as `acl_renounce_role`). -/
def acl_renounce_role (s : AclState) (actor : Principal) (role : Role) :
    Bool × AclState × List Event :=
  let r := oremove (mapGet s.roleGrantees role) actor
  (r.1, { s with roleGrantees := mapSet s.roleGrantees role r.2 },
    if r.1 then [Event.roleRevoked role actor actor] else [])

/-- Result of a call into a method protected by the Method Gate: either
the operation's own result, or a structured insufficient-permissions
failure naming the attempted method and the declared acceptable roles. -/
inductive GateResult (α : Type)
  | ok (a : α)
  | insufficientPermissions (method : String) (allowedRoles : List Role)
deriving DecidableEq, Repr

/-- Modelled from the spec: the Method Gate (the `access_control_any`
attribute, whose derive implementation is not under `src/`; its behavior
is exercised by `tests/access_controllable.rs`).  Given the declared set
of acceptable roles, it evaluates `has_any_role(declared_roles, actor)`
before the protected body runs; if false, the call is rejected with a
structured failure naming the method and the declared roles and the body
never runs; if true, the body executes normally. -/
def method_gate {α : Type} (s : AclState) (methodName : String) (declaredRoles : List Role)
    (actor : Principal) (body : AclState → α × AclState) : GateResult α × AclState :=
  if acl_has_any_role s declaredRoles actor then
    let r := body s
    (GateResult.ok r.1, r.2)
  else (GateResult.insufficientPermissions methodName declaredRoles, s)

/-- Result of calling a `#[private]` contract method: either the result,
or a private-method violation when the caller is not the contract account
itself. -/
inductive PrivateResult (α : Type)
  | ok (a : α)
  | privateMethodViolation
deriving DecidableEq, Repr

/-- Modelled from the spec: `acl_grant_role_unchecked`, implemented by the
test contract in `tests/contracts/access_controllable` (not under `src/`)
and exercised by `test_acl_grant_role_unchecked` and
`test_acl_grant_role_unchecked_is_private`.  It inserts `target` as a
grantee of `role` with no admin-standing check; it is callable only when
the caller is the contract account itself, and a call from any other
account fails as a private-method violation with no state change. -/
def acl_grant_role_unchecked (s : AclState) (contractId caller : Principal)
    (role : Role) (target : Principal) : PrivateResult Bool × AclState :=
  if caller = contractId then
    let r := oinsert (mapGet s.roleGrantees role) target
    (PrivateResult.ok r.1, { s with roleGrantees := mapSet s.roleGrantees role r.2 })
  else (PrivateResult.privateMethodViolation, s)

/-- One mutation request of the Mutation Service, tagged with its actor. -/
inductive Op
  | addSuperAdmin (actor target : Principal)
  | revokeSuperAdmin (actor target : Principal)
  | addAdmin (actor : Principal) (role : Role) (target : Principal)
  | revokeAdmin (actor : Principal) (role : Role) (target : Principal)
  | renounceAdmin (actor : Principal) (role : Role)
  | grantRole (actor : Principal) (role : Role) (target : Principal)
  | revokeRole (actor : Principal) (role : Role) (target : Principal)
  | renounceRole (actor : Principal) (role : Role)
deriving DecidableEq, Repr

/-- The state reached after a single mutation request (discarding the
change indicator and the emitted events). -/
def step (s : AclState) : Op → AclState
  | Op.addSuperAdmin a t => (acl_add_super_admin s a t).2.1
  | Op.revokeSuperAdmin a t => (acl_revoke_super_admin s a t).2.1
  | Op.addAdmin a r t => (acl_add_admin s a r t).2.1
  | Op.revokeAdmin a r t => (acl_revoke_admin s a r t).2.1
  | Op.renounceAdmin a r => (acl_renounce_admin s a r).2.1
  | Op.grantRole a r t => (acl_grant_role s a r t).2.1
  | Op.revokeRole a r t => (acl_revoke_role s a r t).2.1
  | Op.renounceRole a r => (acl_renounce_role s a r).2.1

/-- The state reached after a sequence of mutation requests. -/
def run (s : AclState) : List Op → AclState
  | [] => s
  | o :: os => run (step s o) os

/-! ### Basic lemmas about the store primitives -/

theorem mapGet_mapSet (m : List (Role × List Principal)) (q q' : Role) (v : List Principal) :
    mapGet (mapSet m q v) q' = if q = q' then v else mapGet m q' := by
  induction m with
  | nil => by_cases h : q = q' <;> simp [mapSet, mapGet, h]
  | cons hd tl ih =>
    obtain ⟨r, sl⟩ := hd
    by_cases hrq : r = q
    · by_cases hqq : q = q' <;> simp [mapSet, mapGet, hrq, hqq]
    · by_cases hqq : q = q' <;> by_cases hrq' : r = q' <;>
        simp_all [mapSet, mapGet]

theorem mapSet_mapSet (m : List (Role × List Principal)) (q : Role) (v w : List Principal) :
    mapSet (mapSet m q v) q w = mapSet m q w := by
  induction m with
  | nil => simp [mapSet]
  | cons hd tl ih =>
    obtain ⟨r, sl⟩ := hd
    by_cases hrq : r = q <;> simp [mapSet, hrq, ih]

/-! ### C1 -/

/-- C1: for every role `R` and principal `P`, `is_admin(R, P)` is true iff
`P ∈ SuperAdminSet` or `P ∈ RoleAdmins[R]`; in particular every
super-admin is an admin for every role (including roles never explicitly
touched) without any prior `add_admin` call.  The decision is a total pure
function of the state, so it never mutates state and never fails. -/
theorem C1_is_admin_decision (s : AclState) (R : Role) (P : Principal) :
    (acl_is_admin s R P = true ↔ P ∈ s.superAdmins ∨ P ∈ mapGet s.roleAdmins R) ∧
    (acl_is_super_admin s P = true → acl_is_admin s R P = true) := by
  constructor
  · simp [acl_is_admin, acl_is_super_admin]
  · intro h
    simp [acl_is_admin, h]

/-- C1 witness: in a state whose only content is the super-admin `sa`,
`is_admin` holds for a role that was never touched. -/
theorem C1_witness :
    acl_is_admin ⟨["sa"], [], []⟩ "NeverTouched" "sa" = true ∧
    (acl_is_admin ⟨["sa"], [], []⟩ "NeverTouched" "bob" = true ↔
      "bob" ∈ (["sa"] : List Principal) ∨ "bob" ∈ mapGet [] "NeverTouched") :=
  ⟨(C1_is_admin_decision ⟨["sa"], [], []⟩ "NeverTouched" "sa").2 (by decide),
   (C1_is_admin_decision ⟨["sa"], [], []⟩ "NeverTouched" "bob").1⟩

/-! ### C2 -/

/-- C2: when the actor is not an admin for the role, each of the four
permission-gated mutations returns the distinct permission-denied signal
`none` (distinguishable from `some false`), leaves the permission store
unchanged and emits no event. -/
theorem C2_denied_is_noop (s : AclState) (R : Role) (actor target : Principal)
    (h : acl_is_admin s R actor = false) :
    acl_add_admin s actor R target = (none, s, []) ∧
    acl_revoke_admin s actor R target = (none, s, []) ∧
    acl_grant_role s actor R target = (none, s, []) ∧
    acl_revoke_role s actor R target = (none, s, []) := by
  refine ⟨?_, ?_, ?_, ?_⟩ <;> simp [acl_add_admin, acl_revoke_admin,
    acl_grant_role, acl_revoke_role, h]

/-- C2 witness: in the initial state nobody is an admin, so all four
mutations are denied without effect. -/
theorem C2_witness :
    acl_add_admin AclState.init "eve" "R" "bob" = (none, AclState.init, []) ∧
    acl_revoke_admin AclState.init "eve" "R" "bob" = (none, AclState.init, []) ∧
    acl_grant_role AclState.init "eve" "R" "bob" = (none, AclState.init, []) ∧
    acl_revoke_role AclState.init "eve" "R" "bob" = (none, AclState.init, []) :=
  C2_denied_is_noop AclState.init "R" "eve" "bob" (by decide)

/-! ### C7 -/

/-- C7: `has_any_role(roles, P)` is true iff `has_role(r, P)` holds for at
least one `r` in `roles`; the empty role sequence yields `false`.  The
query is a total pure function of the state, so it never mutates state. -/
theorem C7_has_any_role (s : AclState) (roles : List Role) (P : Principal) :
    (acl_has_any_role s roles P = true ↔ ∃ r ∈ roles, acl_has_role s r P = true) ∧
    acl_has_any_role s [] P = false := by
  constructor
  · simp [acl_has_any_role, List.any_eq_true]
  · simp [acl_has_any_role]

/-- C7 witness: a principal holding only role `A` satisfies
`has_any_role ["A", "B"]` and fails `has_any_role []`. -/
theorem C7_witness :
    (acl_has_any_role ⟨[], [], [("A", ["p"])]⟩ ["A", "B"] "p" = true ↔
      ∃ r ∈ (["A", "B"] : List Role),
        acl_has_role ⟨[], [], [("A", ["p"])]⟩ r "p" = true) ∧
    acl_has_any_role ⟨[], [], [("A", ["p"])]⟩ [] "p" = false :=
  ⟨(C7_has_any_role ⟨[], [], [("A", ["p"])]⟩ ["A", "B"] "p").1,
   (C7_has_any_role ⟨[], [], [("A", ["p"])]⟩ [] "p").2⟩

/-! ### C3 -/

/-- C3: `add_super_admin(target)` with a super-admin actor inserts
`target` into the super-admin set (so `target` is a super-admin
afterwards), returns `some true` exactly when `target` was newly added and
`some false` exactly when it was already present, and emits
`SuperAdminAdded {account := target, by := actor}` exactly on an actual
addition; with a non-super-admin actor, both `add_super_admin` and
`revoke_super_admin` are denied with no state change and no event. -/
theorem C3_super_admin_ops (s : AclState) (actor target : Principal) :
    (acl_is_super_admin s actor = true →
      ((acl_add_super_admin s actor target).1 = some true ↔
        target ∉ s.superAdmins) ∧
      ((acl_add_super_admin s actor target).1 = some false ↔
        target ∈ s.superAdmins) ∧
      acl_is_super_admin (acl_add_super_admin s actor target).2.1 target = true ∧
      ((acl_add_super_admin s actor target).2.2 =
          [Event.superAdminAdded target actor] ↔ target ∉ s.superAdmins)) ∧
    (acl_is_super_admin s actor = false →
      acl_add_super_admin s actor target = (none, s, []) ∧
      acl_revoke_super_admin s actor target = (none, s, [])) := by
  constructor
  · intro h
    by_cases ht : target ∈ s.superAdmins <;>
      simp [acl_add_super_admin, acl_is_super_admin, oinsert, h, ht] <;>
      simp only [acl_is_super_admin] at h <;> simp_all
  · intro h
    constructor <;> simp [acl_add_super_admin, acl_revoke_super_admin, h]

/-- C3 witness: with super-admin `sa`, adding the fresh `bob` reports a
new addition and makes `bob` a super-admin; the non-super-admin `eve` is
denied. -/
theorem C3_witness :
    ((acl_add_super_admin ⟨["sa"], [], []⟩ "sa" "bob").1 = some true ↔
      "bob" ∉ (["sa"] : List Principal)) ∧
    acl_is_super_admin (acl_add_super_admin ⟨["sa"], [], []⟩ "sa" "bob").2.1 "bob" = true ∧
    acl_add_super_admin ⟨["sa"], [], []⟩ "eve" "bob" = (none, ⟨["sa"], [], []⟩, []) ∧
    acl_revoke_super_admin ⟨["sa"], [], []⟩ "eve" "sa" = (none, ⟨["sa"], [], []⟩, []) :=
  ⟨((C3_super_admin_ops ⟨["sa"], [], []⟩ "sa" "bob").1 (by decide)).1,
   ((C3_super_admin_ops ⟨["sa"], [], []⟩ "sa" "bob").1 (by decide)).2.2.1,
   ((C3_super_admin_ops ⟨["sa"], [], []⟩ "eve" "bob").2 (by decide)).1,
   ((C3_super_admin_ops ⟨["sa"], [], []⟩ "eve" "sa").2 (by decide)).2⟩

/-! ### C4 -/

/-- C4: for an operation protected by the Method Gate with a declared
acceptable-role set, an actor failing `has_any_role(declared_roles, actor)`
is rejected with a structured insufficient-permissions failure naming the
attempted method and the declared roles, and the protected body never runs
(the state is returned unchanged); an actor passing the check executes the
body normally. -/
theorem C4_method_gate {α : Type} (s : AclState) (m : String) (roles : List Role)
    (actor : Principal) (body : AclState → α × AclState) :
    (acl_has_any_role s roles actor = false →
      method_gate s m roles actor body =
        (GateResult.insufficientPermissions m roles, s)) ∧
    (acl_has_any_role s roles actor = true →
      method_gate s m roles actor body = (GateResult.ok (body s).1, (body s).2)) := by
  constructor <;> intro h <;> simp [method_gate, h]

/-- C4 witness: `restricted_greeting` declares roles `LevelA` and
`LevelC`; a holder of `LevelA` gets the greeting, a holder of only
`LevelB` is rejected with the method name and the declared role set. -/
theorem C4_witness :
    method_gate ⟨[], [], [("LevelA", ["x"]), ("LevelB", ["y"])]⟩ "restricted_greeting"
        ["LevelA", "LevelC"] "x" (fun st => ("hello world", st)) =
      (GateResult.ok "hello world", ⟨[], [], [("LevelA", ["x"]), ("LevelB", ["y"])]⟩) ∧
    method_gate ⟨[], [], [("LevelA", ["x"]), ("LevelB", ["y"])]⟩ "restricted_greeting"
        ["LevelA", "LevelC"] "y" (fun st => ("hello world", st)) =
      (GateResult.insufficientPermissions "restricted_greeting" ["LevelA", "LevelC"],
        ⟨[], [], [("LevelA", ["x"]), ("LevelB", ["y"])]⟩) :=
  ⟨(C4_method_gate ⟨[], [], [("LevelA", ["x"]), ("LevelB", ["y"])]⟩ "restricted_greeting"
      ["LevelA", "LevelC"] "x" (fun st => ("hello world", st))).2 (by decide),
   (C4_method_gate ⟨[], [], [("LevelA", ["x"]), ("LevelB", ["y"])]⟩ "restricted_greeting"
      ["LevelA", "LevelC"] "y" (fun st => ("hello world", st))).1 (by decide)⟩

/-! ### C6 -/

/-- C6: with an actor permitted for the mutation (an admin for `R`),
`grant_role(R, P)` followed immediately by `has_role(R, P)` yields true,
and `revoke_role(R, P)` followed immediately by `has_role(R, P)` yields
false. -/
theorem C6_grant_revoke_has_role (s : AclState) (R : Role) (P A : Principal)
    (hA : acl_is_admin s R A = true) :
    acl_has_role (acl_grant_role s A R P).2.1 R P = true ∧
    acl_has_role (acl_revoke_role s A R P).2.1 R P = false := by
  constructor
  · by_cases hP : P ∈ mapGet s.roleGrantees R <;>
      simp [acl_grant_role, acl_has_role, hA, oinsert, hP, mapGet_mapSet]
  · by_cases hP : P ∈ mapGet s.roleGrantees R <;>
      simp [acl_revoke_role, acl_has_role, hA, oremove, hP, mapGet_mapSet]

/-- C6 witness: with admin `a` of role `R`, granting and revoking `R` for
`p` is immediately visible to `has_role`. -/
theorem C6_witness :
    acl_has_role (acl_grant_role ⟨[], [("R", ["a"])], []⟩ "a" "R" "p").2.1 "R" "p" = true ∧
    acl_has_role (acl_revoke_role ⟨[], [("R", ["a"])], []⟩ "a" "R" "p").2.1 "R" "p" = false :=
  C6_grant_revoke_has_role ⟨[], [("R", ["a"])], []⟩ "R" "p" "a" (by decide)

/-! ### C5 -/

/-- C5 counterexample: the claim quantifies over every principal `P`, but
when `P` already holds the role the first of the two `grant_role` calls
returns the change indicator `false`, not `true`: here `a` is an admin for
`R` and `p` is already a grantee of `R`, and the first call reports no
change. -/
theorem C5_counterexample :
    acl_is_admin ⟨[], [("R", ["a"])], [("R", ["p"])]⟩ "R" "a" = true ∧
    (acl_grant_role ⟨[], [("R", ["a"])], [("R", ["p"])]⟩ "a" "R" "p").1 ≠ some true := by
  decide

/-- C5 (amended): for every role `R`, admin actor `A` for `R`, and
principal `P` that does not already hold `R`, calling `grant_role(R, P)`
twice in a row returns `some true` then `some false`, the state after the
second call equals the state after the first, and exactly one
`RoleGranted` event is emitted across the two calls. -/
theorem C5_grant_idempotent (s : AclState) (R : Role) (P A : Principal)
    (hA : acl_is_admin s R A = true) (hP : acl_has_role s R P = false) :
    (acl_grant_role s A R P).1 = some true ∧
    (acl_grant_role (acl_grant_role s A R P).2.1 A R P).1 = some false ∧
    (acl_grant_role (acl_grant_role s A R P).2.1 A R P).2.1 = (acl_grant_role s A R P).2.1 ∧
    (acl_grant_role s A R P).2.2 ++
        (acl_grant_role (acl_grant_role s A R P).2.1 A R P).2.2 =
      [Event.roleGranted R P A] := by
  have hP' : P ∉ mapGet s.roleGrantees R := by simpa [acl_has_role] using hP
  have hA1 : acl_is_admin
      { s with roleGrantees := mapSet s.roleGrantees R (mapGet s.roleGrantees R ++ [P]) }
      R A = true := hA
  simp [acl_grant_role, oinsert, hA, hA1, hP', mapGet_mapSet, mapSet_mapSet]

/-- C5 witness: admin `a` of `R` granting `R` to the fresh `p` twice. -/
theorem C5_witness :
    (acl_grant_role ⟨[], [("R", ["a"])], []⟩ "a" "R" "p").1 = some true ∧
    (acl_grant_role (acl_grant_role ⟨[], [("R", ["a"])], []⟩ "a" "R" "p").2.1
        "a" "R" "p").1 = some false ∧
    (acl_grant_role (acl_grant_role ⟨[], [("R", ["a"])], []⟩ "a" "R" "p").2.1
        "a" "R" "p").2.1 = (acl_grant_role ⟨[], [("R", ["a"])], []⟩ "a" "R" "p").2.1 ∧
    (acl_grant_role ⟨[], [("R", ["a"])], []⟩ "a" "R" "p").2.2 ++
        (acl_grant_role (acl_grant_role ⟨[], [("R", ["a"])], []⟩ "a" "R" "p").2.1
          "a" "R" "p").2.2 =
      [Event.roleGranted "R" "p" "a"] :=
  C5_grant_idempotent ⟨[], [("R", ["a"])], []⟩ "R" "p" "a" (by decide) (by decide)

/-! ### C8 -/

/-- C8: the paginated reads return at most `limit` principals consisting
of the members after skipping the first `skip` in insertion order (element
`i` of the page is member `skip + i`); `skip` at or beyond the set size
yields the empty sequence and `limit = 0` yields the empty sequence.  Both
reads are total functions of the state and the two arguments, so they
never fail for any argument values. -/
theorem C8_pagination (s : AclState) (R : Role) (skip limit : Nat) :
    (acl_get_admins s R skip limit).length ≤ limit ∧
    (acl_get_grantees s R skip limit).length ≤ limit ∧
    ((mapGet s.roleAdmins R).length ≤ skip → acl_get_admins s R skip limit = []) ∧
    ((mapGet s.roleGrantees R).length ≤ skip → acl_get_grantees s R skip limit = []) ∧
    (limit = 0 →
      acl_get_admins s R skip limit = [] ∧ acl_get_grantees s R skip limit = []) ∧
    (∀ i : Nat, (acl_get_admins s R skip limit)[i]? =
      if i < limit then (mapGet s.roleAdmins R)[skip + i]? else none) ∧
    (∀ i : Nat, (acl_get_grantees s R skip limit)[i]? =
      if i < limit then (mapGet s.roleGrantees R)[skip + i]? else none) := by
  refine ⟨?_, ?_, ?_, ?_, ?_, ?_, ?_⟩
  · simp [acl_get_admins, List.length_take]
  · simp [acl_get_grantees, List.length_take]
  · intro h
    simp [acl_get_admins, List.drop_eq_nil_of_le h]
  · intro h
    simp [acl_get_grantees, List.drop_eq_nil_of_le h]
  · intro h
    simp [acl_get_admins, acl_get_grantees, h]
  · intro i
    simp [acl_get_admins, List.getElem?_take, List.getElem?_drop]
  · intro i
    simp [acl_get_grantees, List.getElem?_take, List.getElem?_drop]

/-- C8 witness: with grantees added in order `p1, p2, p3`, the page with
`skip = 1`, `limit = 1` has `p2` at index `0`, and `skip = 5` is beyond
the set size so the page is empty. -/
theorem C8_witness :
    acl_get_grantees ⟨[], [], [("R", ["p1", "p2", "p3"])]⟩ "R" 5 5 = [] ∧
    (acl_get_grantees ⟨[], [], [("R", ["p1", "p2", "p3"])]⟩ "R" 1 1)[0]? =
      (if 0 < 1 then
        (mapGet (AclState.roleGrantees ⟨[], [], [("R", ["p1", "p2", "p3"])]⟩) "R")[1 + 0]?
       else none) ∧
    acl_get_admins ⟨[], [], [("R", ["p1", "p2", "p3"])]⟩ "R" 0 0 = [] :=
  ⟨(C8_pagination ⟨[], [], [("R", ["p1", "p2", "p3"])]⟩ "R" 5 5).2.2.2.1 (by decide),
   (C8_pagination ⟨[], [], [("R", ["p1", "p2", "p3"])]⟩ "R" 1 1).2.2.2.2.2.2 0,
   ((C8_pagination ⟨[], [], [("R", ["p1", "p2", "p3"])]⟩ "R" 0 0).2.2.2.2.1 rfl).1⟩

/-! ### C9 -/

/-- One observable evolution step of a per-role ordered set: a mutation
either leaves the enumeration unchanged, appends a fresh member at the end
of the insertion order, or removes one member keeping the relative order
of the remaining members.  Every branch preserves the insertion order of
the surviving members. -/
def orderStep (old new : List Principal) : Prop :=
  new = old ∨ (∃ p, p ∉ old ∧ new = old ++ [p]) ∨ (∃ p, new = old.filter (fun q => q ≠ p))

theorem orderStep_refl (l : List Principal) : orderStep l l := Or.inl rfl

theorem orderStep_oinsert (g : List Principal) (p : Principal) :
    orderStep g (oinsert g p).2 := by
  by_cases h : p ∈ g
  · simp [oinsert, h, orderStep]
  · exact Or.inr (Or.inl ⟨p, h, by simp [oinsert, h]⟩)

theorem orderStep_oremove (g : List Principal) (p : Principal) :
    orderStep g (oremove g p).2 := by
  by_cases h : p ∈ g
  · exact Or.inr (Or.inr ⟨p, by simp [oremove, h]⟩)
  · simp [oremove, h, orderStep]

theorem orderStep_mapSet_oinsert (m : List (Role × List Principal)) (role R : Role)
    (t : Principal) :
    orderStep (mapGet m R) (mapGet (mapSet m role (oinsert (mapGet m role) t).2) R) := by
  rw [mapGet_mapSet]
  by_cases h : role = R
  · subst h
    simp only [if_pos rfl]
    exact orderStep_oinsert _ _
  · simp only [if_neg h]
    exact orderStep_refl _

theorem orderStep_mapSet_oremove (m : List (Role × List Principal)) (role R : Role)
    (t : Principal) :
    orderStep (mapGet m R) (mapGet (mapSet m role (oremove (mapGet m role) t).2) R) := by
  rw [mapGet_mapSet]
  by_cases h : role = R
  · subst h
    simp only [if_pos rfl]
    exact orderStep_oremove _ _
  · simp only [if_neg h]
    exact orderStep_refl _

theorem orderStep_step (s : AclState) (o : Op) (R : Role) :
    orderStep (mapGet s.roleAdmins R) (mapGet (step s o).roleAdmins R) ∧
    orderStep (mapGet s.roleGrantees R) (mapGet (step s o).roleGrantees R) := by
  cases o with
  | addSuperAdmin a t =>
    by_cases h : acl_is_super_admin s a <;>
      simp [step, acl_add_super_admin, h] <;>
      exact ⟨orderStep_refl _, orderStep_refl _⟩
  | revokeSuperAdmin a t =>
    by_cases h : acl_is_super_admin s a <;>
      simp [step, acl_revoke_super_admin, h] <;>
      exact ⟨orderStep_refl _, orderStep_refl _⟩
  | addAdmin a r t =>
    by_cases h : acl_is_admin s r a
    · simp [step, acl_add_admin, h]
      exact ⟨orderStep_mapSet_oinsert _ _ _ _, orderStep_refl _⟩
    · simp [step, acl_add_admin, h]
      exact ⟨orderStep_refl _, orderStep_refl _⟩
  | revokeAdmin a r t =>
    by_cases h : acl_is_admin s r a
    · simp [step, acl_revoke_admin, h]
      exact ⟨orderStep_mapSet_oremove _ _ _ _, orderStep_refl _⟩
    · simp [step, acl_revoke_admin, h]
      exact ⟨orderStep_refl _, orderStep_refl _⟩
  | renounceAdmin a r =>
    simp [step, acl_renounce_admin]
    exact ⟨orderStep_mapSet_oremove _ _ _ _, orderStep_refl _⟩
  | grantRole a r t =>
    by_cases h : acl_is_admin s r a
    · simp [step, acl_grant_role, h]
      exact ⟨orderStep_refl _, orderStep_mapSet_oinsert _ _ _ _⟩
    · simp [step, acl_grant_role, h]
      exact ⟨orderStep_refl _, orderStep_refl _⟩
  | revokeRole a r t =>
    by_cases h : acl_is_admin s r a
    · simp [step, acl_revoke_role, h]
      exact ⟨orderStep_refl _, orderStep_mapSet_oremove _ _ _ _⟩
    · simp [step, acl_revoke_role, h]
      exact ⟨orderStep_refl _, orderStep_refl _⟩
  | renounceRole a r =>
    simp [step, acl_renounce_role]
    exact ⟨orderStep_refl _, orderStep_mapSet_oremove _ _ _ _⟩

theorem run_append (xs ys : List Op) (s : AclState) :
    run s (xs ++ ys) = run (run s xs) ys := by
  induction xs generalizing s with
  | nil => rfl
  | cons o os ih => simp [run, ih]

theorem run_take_succ (ops : List Op) (i : Nat) (hi : i < ops.length) (s : AclState) :
    run s (ops.take (i + 1)) = step (run s (ops.take i)) (ops.get ⟨i, hi⟩) := by
  rw [List.take_succ, List.getElem?_eq_getElem hi, run_append]
  rfl

theorem filter_ne_of_not_mem (g : List Principal) (P : Principal) (h : P ∉ g) :
    g.filter (fun q => q ≠ P) = g := by
  apply List.filter_eq_self.mpr
  intro a ha
  simp only [decide_eq_true_eq]
  exact fun hq => h (hq ▸ ha)

/-- C9: insertion order of `RoleAdmins[R]` and `RoleGrantees[R]` is
preserved by every mutation sequence: at every position `i` of an
arbitrary sequence of mutation requests, the transition from the `i`-th
intermediate state to the next changes each per-role enumeration only by
an order-preserving step — leaving it unchanged, appending one fresh
member at the end of the insertion order, or removing one member while
keeping the relative order of the rest.  Moreover removing a principal
and re-adding it places it at the end of the order: revoke-then-grant by
an admin for the grantee enumeration, and revoke-then-add (by an actor
still holding admin standing after the removal) for the admin
enumeration. -/
theorem C9_insertion_order (s : AclState) (ops : List Op) (i : Nat) (hi : i < ops.length)
    (R : Role) (A P : Principal) :
    (orderStep (mapGet (run s (ops.take i)).roleAdmins R)
        (mapGet (run s (ops.take (i + 1))).roleAdmins R) ∧
      orderStep (mapGet (run s (ops.take i)).roleGrantees R)
        (mapGet (run s (ops.take (i + 1))).roleGrantees R)) ∧
    (acl_is_admin s R A = true →
      mapGet (acl_grant_role (acl_revoke_role s A R P).2.1 A R P).2.1.roleGrantees R =
        (mapGet s.roleGrantees R).filter (fun q => q ≠ P) ++ [P]) ∧
    (acl_is_admin s R A = true →
      acl_is_admin (acl_revoke_admin s A R P).2.1 R A = true →
      mapGet (acl_add_admin (acl_revoke_admin s A R P).2.1 A R P).2.1.roleAdmins R =
        (mapGet s.roleAdmins R).filter (fun q => q ≠ P) ++ [P]) := by
  refine ⟨?_, ?_, ?_⟩
  · rw [run_take_succ ops i hi s]
    exact orderStep_step (run s (ops.take i)) (ops.get ⟨i, hi⟩) R
  · intro hA
    have hA1 : ∀ X, acl_is_admin { s with roleGrantees := X } R A = true := fun _ => hA
    by_cases hP : P ∈ mapGet s.roleGrantees R
    · simp [acl_revoke_role, acl_grant_role, oremove, oinsert, hA, hA1, hP,
        mapGet_mapSet, mapSet_mapSet, List.mem_filter]
    · simp [acl_revoke_role, acl_grant_role, oremove, oinsert, hA, hA1, hP,
        mapGet_mapSet, mapSet_mapSet]
      simpa using (filter_ne_of_not_mem (mapGet s.roleGrantees R) P hP).symm
  · intro hA hA2
    by_cases hP : P ∈ mapGet s.roleAdmins R
    · simp [acl_revoke_admin, oremove, hA, hP] at hA2
      simp [acl_revoke_admin, acl_add_admin, oremove, oinsert, hA, hA2, hP,
        mapGet_mapSet, mapSet_mapSet, List.mem_filter]
    · simp [acl_revoke_admin, oremove, hA, hP] at hA2
      simp [acl_revoke_admin, acl_add_admin, oremove, oinsert, hA, hA2, hP,
        mapGet_mapSet, mapSet_mapSet]
      simpa using (filter_ne_of_not_mem (mapGet s.roleAdmins R) P hP).symm

/-- C9 witness: with admins `p, a` and grantees `p1, p, p3` of role `R`,
position `1` of a concrete two-request sequence evolves both per-role
enumerations by an order-preserving step; revoking then re-granting `p`
yields the grantee enumeration `p1, p3, p`, and revoking then re-adding
the admin `p` yields the admin enumeration `a, p` — `p` moved to the end
in both. -/
theorem C9_witness :
    (orderStep
        (mapGet (run ⟨[], [("R", ["p", "a"])], [("R", ["p1", "p", "p3"])]⟩
          ([Op.grantRole "a" "R" "p2", Op.revokeRole "a" "R" "p1"].take 1)).roleAdmins "R")
        (mapGet (run ⟨[], [("R", ["p", "a"])], [("R", ["p1", "p", "p3"])]⟩
          ([Op.grantRole "a" "R" "p2", Op.revokeRole "a" "R" "p1"].take 2)).roleAdmins "R") ∧
      orderStep
        (mapGet (run ⟨[], [("R", ["p", "a"])], [("R", ["p1", "p", "p3"])]⟩
          ([Op.grantRole "a" "R" "p2", Op.revokeRole "a" "R" "p1"].take 1)).roleGrantees "R")
        (mapGet (run ⟨[], [("R", ["p", "a"])], [("R", ["p1", "p", "p3"])]⟩
          ([Op.grantRole "a" "R" "p2",
            Op.revokeRole "a" "R" "p1"].take 2)).roleGrantees "R")) ∧
    mapGet (acl_grant_role
        (acl_revoke_role ⟨[], [("R", ["p", "a"])], [("R", ["p1", "p", "p3"])]⟩
          "a" "R" "p").2.1 "a" "R" "p").2.1.roleGrantees "R" =
      (mapGet (AclState.roleGrantees
          ⟨[], [("R", ["p", "a"])], [("R", ["p1", "p", "p3"])]⟩) "R").filter
        (fun q => q ≠ "p") ++ ["p"] ∧
    mapGet (acl_add_admin
        (acl_revoke_admin ⟨[], [("R", ["p", "a"])], [("R", ["p1", "p", "p3"])]⟩
          "a" "R" "p").2.1 "a" "R" "p").2.1.roleAdmins "R" =
      (mapGet (AclState.roleAdmins
          ⟨[], [("R", ["p", "a"])], [("R", ["p1", "p", "p3"])]⟩) "R").filter
        (fun q => q ≠ "p") ++ ["p"] :=
  ⟨(C9_insertion_order ⟨[], [("R", ["p", "a"])], [("R", ["p1", "p", "p3"])]⟩
      [Op.grantRole "a" "R" "p2", Op.revokeRole "a" "R" "p1"] 1 (by decide) "R" "a" "p").1,
   (C9_insertion_order ⟨[], [("R", ["p", "a"])], [("R", ["p1", "p", "p3"])]⟩
      [Op.grantRole "a" "R" "p2", Op.revokeRole "a" "R" "p1"] 1 (by decide) "R" "a" "p").2.1
     (by decide),
   (C9_insertion_order ⟨[], [("R", ["p", "a"])], [("R", ["p1", "p", "p3"])]⟩
      [Op.grantRole "a" "R" "p2", Op.revokeRole "a" "R" "p1"] 1 (by decide) "R" "a" "p").2.2
     (by decide) (by decide)⟩

/-! ### C10 -/

/-- C10: `acl_grant_role_unchecked(role, account)` inserts the account as
a grantee with no admin-standing precondition on the actor: when the
caller is the contract account itself the call succeeds (returning whether
the grantee is new), afterwards `has_role` holds, and repeating the call
for the already-granted role succeeds without error; a call from any other
account fails as a private-method violation with no state change. -/
theorem C10_grant_role_unchecked (s : AclState) (contractId caller : Principal)
    (R : Role) (P : Principal) :
    (caller = contractId →
      (acl_grant_role_unchecked s contractId caller R P).1 =
        PrivateResult.ok (decide (P ∉ mapGet s.roleGrantees R)) ∧
      acl_has_role (acl_grant_role_unchecked s contractId caller R P).2 R P = true ∧
      (acl_grant_role_unchecked (acl_grant_role_unchecked s contractId caller R P).2
          contractId caller R P).1 = PrivateResult.ok false) ∧
    (caller ≠ contractId →
      acl_grant_role_unchecked s contractId caller R P =
        (PrivateResult.privateMethodViolation, s)) := by
  constructor
  · intro h
    subst h
    by_cases hP : P ∈ mapGet s.roleGrantees R <;>
      simp [acl_grant_role_unchecked, acl_has_role, oinsert, hP, mapGet_mapSet]
  · intro h
    simp [acl_grant_role_unchecked, h]

/-- C10 witness: the contract account `c` grants `LevelA` to `p` (also a
second time, without error) while the outside account `eve` is rejected as
a private-method violation with no state change. -/
theorem C10_witness :
    (acl_grant_role_unchecked AclState.init "c" "c" "LevelA" "p").1 =
      PrivateResult.ok (decide ("p" ∉ mapGet AclState.init.roleGrantees "LevelA")) ∧
    acl_has_role (acl_grant_role_unchecked AclState.init "c" "c" "LevelA" "p").2
      "LevelA" "p" = true ∧
    (acl_grant_role_unchecked (acl_grant_role_unchecked AclState.init "c" "c" "LevelA" "p").2
        "c" "c" "LevelA" "p").1 = PrivateResult.ok false ∧
    acl_grant_role_unchecked AclState.init "c" "eve" "LevelA" "p" =
      (PrivateResult.privateMethodViolation, AclState.init) :=
  ⟨((C10_grant_role_unchecked AclState.init "c" "c" "LevelA" "p").1 rfl).1,
   ((C10_grant_role_unchecked AclState.init "c" "c" "LevelA" "p").1 rfl).2.1,
   ((C10_grant_role_unchecked AclState.init "c" "c" "LevelA" "p").1 rfl).2.2,
   (C10_grant_role_unchecked AclState.init "c" "eve" "LevelA" "p").2 (by decide)⟩
